import Mathlib

/-!
Verification development for the manual-channel-aligner repository.

The embedding models the geometric transform pipeline of core.py and
app.py over exact rational arithmetic, single-band images as grids of
natural-number sample values, and the PIL operations the code calls
(copy, rotate, affine transform, crop, point maps, autocontrast) by
their documented and implemented sampling semantics.
-/

/-- Single-band image: width, height, and a sample value for each pixel
coordinate x lt w, y lt h.  Values outside that range are never read
through Img.get. -/
structure Img where
  w : Nat
  h : Nat
  pix : Nat → Nat → Nat

/-- Reading a pixel at signed coordinates with fill value 0 outside the
image bounds, matching PIL fillcolor=0 semantics for out-of-bounds
source lookups. -/
def Img.get (img : Img) (x y : Int) : Nat :=
  if 0 ≤ x ∧ x < (img.w : Int) ∧ 0 ≤ y ∧ y < (img.h : Int) then
    img.pix x.toNat y.toNat
  else 0

/-- Pixel-for-pixel equality of two images: same dimensions and the same
sample value at every in-bounds coordinate. -/
def Img.Eq (a b : Img) : Prop :=
  a.w = b.w ∧ a.h = b.h ∧ ∀ x < a.w, ∀ y < a.h, a.pix x y = b.pix x y

instance (a b : Img) : Decidable (Img.Eq a b) := by
  unfold Img.Eq
  infer_instance

lemma imgEq_refl (a : Img) : Img.Eq a a :=
  ⟨rfl, rfl, fun _ _ _ _ => rfl⟩

/-- A resampling filter, abstracted as the function that produces the
sample value of a source image at a continuous source coordinate
(including its own out-of-bounds fill handling).  PIL nearest, bilinear
and bicubic are all instances of this shape. -/
def Sampler : Type := Img → ℚ → ℚ → Nat

/-- Nearest-neighbour resampling as implemented by ImagingTransformAffine
in PIL: the source pixel index is the floor of the continuous source
coordinate, and coordinates outside the image produce the fill value 0.
PIL maps every negative coordinate to index -1, which is out of bounds
exactly when the floor is negative, so floor-plus-bounds-check is
extensionally the same test. -/
def nearestSample : Sampler := fun img xs ys => img.get ⌊xs⌋ ⌊ys⌋

/-- A sampler is center-exact when sampling at the continuous center of an
integer pixel returns exactly that pixel (with fill 0 outside).  PIL
nearest, bilinear and bicubic all have this property: at a pixel center
the interpolation weights collapse onto the single source pixel. -/
def CenterExact (resample : Sampler) : Prop :=
  ∀ (img : Img) (u v : Int),
    resample img ((u : ℚ) + 1/2) ((v : ℚ) + 1/2) = img.get u v

/-- Inverse affine matrix a0 a1 a2 b0 b1 b2 mapping destination pixel
coordinates back to source coordinates, as used by PIL Image.transform
with the AFFINE method. -/
structure AffMat where
  a0 : ℚ
  a1 : ℚ
  a2 : ℚ
  b0 : ℚ
  b1 : ℚ
  b2 : ℚ

/-- PIL Image.transform with method AFFINE: each destination pixel (x, y)
is sampled from the source at the matrix applied to the destination pixel
center (x + 1/2, y + 1/2). -/
def affineResample (resample : Sampler) (src : Img) (m : AffMat)
    (outW outH : Nat) : Img :=
  ⟨outW, outH, fun x y =>
    resample src
      (m.a0 * ((x : ℚ) + 1/2) + m.a1 * ((y : ℚ) + 1/2) + m.a2)
      (m.b0 * ((x : ℚ) + 1/2) + m.b1 * ((y : ℚ) + 1/2) + m.b2)⟩

/-- Embedding of the TransformState dataclass of core.py.  Translation is
dx, dy.  The rotation angle_deg is embedded by the exact value pair
(ca, sa) = (cos angle_deg, sin angle_deg); the pair (1, 0) corresponds
exactly to the angles that are multiples of 360 degrees, for which PIL
Image.rotate returns a plain copy. -/
structure TransformState where
  dx : ℚ
  dy : ℚ
  ca : ℚ
  sa : ℚ

/-- The inverse matrix built by PIL Image.rotate for a rotation about the
image center (expand=False): with a = minus the angle, the matrix is
(cos a, sin a, t0, -sin a, cos a, t1) whose translation entries move the
center (w/2, h/2) back onto itself. -/
def rotationMatrix (ca sa : ℚ) (w h : Nat) : AffMat :=
  let cx : ℚ := (w : ℚ) / 2
  let cy : ℚ := (h : ℚ) / 2
  { a0 := ca
    a1 := -sa
    a2 := ca * (-cx) + (-sa) * (-cy) + cx
    b0 := sa
    b1 := ca
    b2 := sa * (-cx) + ca * (-cy) + cy }

/-- PIL Image.rotate about the center with expand=False and fillcolor=0.
When the angle is a multiple of 360 degrees, that is (ca, sa) = (1, 0),
PIL returns a copy of the image; otherwise it resamples through the
rotation matrix (the 90, 180 and 270 degree fast paths agree with that
resampling at the half-integer sample points). -/
def pilRotate (resample : Sampler) (img : Img) (ca sa : ℚ) : Img :=
  if ca = 1 ∧ sa = 0 then img
  else affineResample resample img (rotationMatrix ca sa img.w img.h) img.w img.h

/-- The translation step of apply_transform in core.py: out.transform with
the AFFINE matrix (1, 0, -dx, 0, 1, -dy) and fillcolor=0, keeping the
image size. -/
def pilTranslate (resample : Sampler) (img : Img) (dx dy : ℚ) : Img :=
  affineResample resample img ⟨1, 0, -dx, 0, 1, -dy⟩ img.w img.h

/-- Embedding of apply_transform of core.py: copy the input, rotate when
the angle is truthy (skipping has the same value as rotating by a
multiple of 360, so the test is expressed on the cosine-sine pair), then
translate when dx or dy is truthy. -/
def apply_transform (image : Img) (state : TransformState)
    (resample : Sampler) : Img :=
  let out := image
  let out := if state.ca = 1 ∧ state.sa = 0 then out
    else pilRotate resample out state.ca state.sa
  if state.dx = 0 ∧ state.dy = 0 then out
  else pilTranslate resample out state.dx state.dy

/-- Embedding of affine_matrix_for_state of app.py, mirroring its exact
arithmetic expression for each coefficient. -/
def affine_matrix_for_state (state : TransformState) (size : Nat × Nat) :
    AffMat :=
  let cx : ℚ := (size.1 : ℚ) / 2
  let cy : ℚ := (size.2 : ℚ) / 2
  { a0 := state.ca
    a1 := -state.sa
    a2 := (-(state.ca * state.dx)) - state.ca * cx + state.sa * state.dy
      + state.sa * cy + cx
    b0 := state.sa
    b1 := state.ca
    b2 := (-(state.sa * state.dx)) - state.sa * cx - state.ca * state.dy
      - state.ca * cy + cy }

/-- Embedding of affine_matrix_for_crop of app.py: the matrix for the
state with its translation terms offset by the crop origin. -/
def affine_matrix_for_crop (state : TransformState) (size : Nat × Nat)
    (outX0 outY0 : Nat) : AffMat :=
  let m := affine_matrix_for_state state size
  { m with
    a2 := m.a2 + m.a0 * (outX0 : ℚ) + m.a1 * (outY0 : ℚ)
    b2 := m.b2 + m.b0 * (outX0 : ℚ) + m.b1 * (outY0 : ℚ) }

/-- PIL Image.crop of the box from (x0, y0) of size cw by ch: pixel (x, y)
of the result reads pixel (x + x0, y + y0) of the source, with fill 0
where the box leaves the source bounds. -/
def imgCrop (img : Img) (x0 y0 cw ch : Nat) : Img :=
  ⟨cw, ch, fun x y => img.get ((x : Int) + (x0 : Int)) ((y : Int) + (y0 : Int))⟩

/-- Embedding of clamp_scroll_fraction of app.py. -/
def clamp_scroll_fraction (value scroll_w canvas_w : ℚ) : ℚ :=
  if scroll_w ≤ 0 then 0
  else min (max value 0) (max 0 (1 - canvas_w / scroll_w))

/-- C2: apply_transform with the identity TransformState (dx = dy = 0 and
angle_deg = 0, embedded as cosine-sine pair (1, 0)) returns an image that
is pixel-identical to the input, for every image and every resampling
filter. -/
theorem apply_transform_identity_noop (img : Img) (resample : Sampler) :
    Img.Eq (apply_transform img ⟨0, 0, 1, 0⟩ resample) img := by
  unfold apply_transform
  simp only [and_self, if_true, if_pos]
  exact imgEq_refl img

/-- C8: for positive scroll width, clamp_scroll_fraction lands in the
interval from 0 to max 0 (1 - canvas over scroll), and it is idempotent:
clamping an already clamped value changes nothing. -/
theorem clamp_scroll_fraction_spec (f scroll_w canvas_w : ℚ)
    (h : 0 < scroll_w) :
    0 ≤ clamp_scroll_fraction f scroll_w canvas_w ∧
    clamp_scroll_fraction f scroll_w canvas_w
      ≤ max 0 (1 - canvas_w / scroll_w) ∧
    clamp_scroll_fraction (clamp_scroll_fraction f scroll_w canvas_w)
      scroll_w canvas_w = clamp_scroll_fraction f scroll_w canvas_w := by
  unfold clamp_scroll_fraction
  rw [if_neg (not_le.mpr h)]
  refine ⟨le_min (le_max_right f 0) (le_max_left 0 _), min_le_right _ _, ?_⟩
  have h0 : 0 ≤ min (max f 0) (max 0 (1 - canvas_w / scroll_w)) :=
    le_min (le_max_right f 0) (le_max_left 0 _)
  rw [max_eq_left h0, min_eq_left (min_le_right _ _), if_neg (not_le.mpr h)]

/-- Witness for C8 at f = 2, scroll width 200, canvas width 100. -/
theorem clamp_scroll_fraction_spec_witness :
    (0 : ℚ) < 200 ∧
    (0 ≤ clamp_scroll_fraction 2 200 100 ∧
      clamp_scroll_fraction 2 200 100 ≤ max 0 (1 - (100 : ℚ) / 200) ∧
      clamp_scroll_fraction (clamp_scroll_fraction 2 200 100) 200 100
        = clamp_scroll_fraction 2 200 100) :=
  ⟨by norm_num, clamp_scroll_fraction_spec 2 200 100 (by norm_num)⟩

lemma floor_intCast_add_half (n : Int) : ⌊(n : ℚ) + 1/2⌋ = n := by
  rw [Int.floor_int_add, show ⌊(1/2 : ℚ)⌋ = 0 by norm_num [Int.floor_eq_iff],
    add_zero]

lemma affineResample_get (resample : Sampler) (src : Img) (m : AffMat)
    (outW outH : Nat) (u v : Int)
    (hu0 : 0 ≤ u) (huW : u < (outW : Int))
    (hv0 : 0 ≤ v) (hvH : v < (outH : Int)) :
    (affineResample resample src m outW outH).get u v
      = resample src
          (m.a0 * ((u : ℚ) + 1/2) + m.a1 * ((v : ℚ) + 1/2) + m.a2)
          (m.b0 * ((u : ℚ) + 1/2) + m.b1 * ((v : ℚ) + 1/2) + m.b2) := by
  unfold affineResample Img.get
  rw [if_pos ⟨hu0, huW, hv0, hvH⟩]
  dsimp only
  have hu : ((u.toNat : Nat) : ℚ) = (u : ℚ) := by
    exact_mod_cast congrArg (fun z : Int => (z : ℚ)) (Int.toNat_of_nonneg hu0)
  have hv : ((v.toNat : Nat) : ℚ) = (v : ℚ) := by
    exact_mod_cast congrArg (fun z : Int => (z : ℚ)) (Int.toNat_of_nonneg hv0)
  rw [hu, hv]

lemma apply_transform_translation_eq (img : Img) (dx dy : ℚ)
    (resample : Sampler) :
    apply_transform img ⟨dx, dy, 1, 0⟩ resample
      = if dx = 0 ∧ dy = 0 then img else pilTranslate resample img dx dy := by
  unfold apply_transform
  simp

lemma pilTranslate_get_int (img : Img) (dx dy u v : Int)
    (hu0 : 0 ≤ u) (huW : u < (img.w : Int))
    (hv0 : 0 ≤ v) (hvH : v < (img.h : Int)) :
    (pilTranslate nearestSample img (dx : ℚ) (dy : ℚ)).get u v
      = img.get (u - dx) (v - dy) := by
  unfold pilTranslate
  rw [affineResample_get nearestSample img _ img.w img.h u v hu0 huW hv0 hvH]
  unfold nearestSample
  have hx : (1 : ℚ) * ((u : ℚ) + 1/2) + 0 * ((v : ℚ) + 1/2) + -(dx : ℚ)
      = ((u - dx : Int) : ℚ) + 1/2 := by
    push_cast
    ring
  have hy : (0 : ℚ) * ((u : ℚ) + 1/2) + 1 * ((v : ℚ) + 1/2) + -(dy : ℚ)
      = ((v - dy : Int) : ℚ) + 1/2 := by
    push_cast
    ring
  rw [hx, hy, floor_intCast_add_half, floor_intCast_add_half]

/-- C3: for integer translations with nearest-neighbour resampling and no
rotation, apply_transform moves content right and down by (dx, dy): the
value at source (x, y) appears at destination (x + dx, y + dy) whenever
both are in bounds, and every destination pixel whose inverse-mapped
source coordinate is out of bounds is filled with 0. -/
theorem apply_transform_translation_nearest (img : Img) (dx dy : Int) :
    (∀ x y : Int, 0 ≤ x → x < (img.w : Int) → 0 ≤ y → y < (img.h : Int) →
      0 ≤ x + dx → x + dx < (img.w : Int) →
      0 ≤ y + dy → y + dy < (img.h : Int) →
      (apply_transform img ⟨(dx : ℚ), (dy : ℚ), 1, 0⟩ nearestSample).get
          (x + dx) (y + dy) = img.get x y) ∧
    (∀ x y : Int, 0 ≤ x → x < (img.w : Int) → 0 ≤ y → y < (img.h : Int) →
      ¬(0 ≤ x - dx ∧ x - dx < (img.w : Int) ∧
        0 ≤ y - dy ∧ y - dy < (img.h : Int)) →
      (apply_transform img ⟨(dx : ℚ), (dy : ℚ), 1, 0⟩ nearestSample).get
          x y = 0) := by
  rw [apply_transform_translation_eq]
  by_cases hc : (dx : ℚ) = 0 ∧ (dy : ℚ) = 0
  · have hdx : dx = 0 := by exact_mod_cast hc.1
    have hdy : dy = 0 := by exact_mod_cast hc.2
    subst hdx hdy
    rw [if_pos hc]
    constructor
    · intro x y _ _ _ _ _ _ _ _
      rw [add_zero, add_zero]
    · intro x y hx0 hxw hy0 hyh hOOB
      exact absurd ⟨by rwa [sub_zero], by rwa [sub_zero], by rwa [sub_zero],
        by rwa [sub_zero]⟩ hOOB
  · rw [if_neg hc]
    constructor
    · intro x y hx0 hxw hy0 hyh h1 h2 h3 h4
      rw [pilTranslate_get_int img dx dy _ _ h1 h2 h3 h4, add_sub_cancel_right,
        add_sub_cancel_right]
    · intro x y hx0 hxw hy0 hyh hOOB
      rw [pilTranslate_get_int img dx dy x y hx0 hxw hy0 hyh]
      unfold Img.get
      rw [if_neg hOOB]

/-- Test image used by the C3 witness: a 5 by 5 image with a single
bright pixel at (2, 2), as in the repository test suite. -/
def img5ex : Img := ⟨5, 5, fun x y => if x = 2 ∧ y = 2 then 255 else 0⟩

/-- Witness for C3: translating by (1, -1) moves the bright pixel from
(2, 2) to (3, 1), and the destination pixel (0, 0), whose source (-1, 1)
is out of bounds, is filled with 0. -/
theorem apply_transform_translation_nearest_witness :
    (apply_transform img5ex ⟨((1 : Int) : ℚ), ((-1 : Int) : ℚ), 1, 0⟩
        nearestSample).get 3 1 = 255 ∧
    (apply_transform img5ex ⟨((1 : Int) : ℚ), ((-1 : Int) : ℚ), 1, 0⟩
        nearestSample).get 0 0 = 0 := by
  have h := apply_transform_translation_nearest img5ex 1 (-1)
  constructor
  · have h1 := h.1 2 2 (by decide) (by decide) (by decide) (by decide)
      (by decide) (by decide) (by decide) (by decide)
    have e : img5ex.get 2 2 = 255 := by decide
    rw [e] at h1
    norm_num at h1
    exact h1
  · exact h.2 0 0 (by decide) (by decide) (by decide) (by decide) (by decide)

lemma nearestSample_centerExact : CenterExact nearestSample := by
  intro img u v
  unfold nearestSample
  rw [floor_intCast_add_half, floor_intCast_add_half]

lemma Img.get_eval (img : Img) (x y : Int) (hx0 : 0 ≤ x)
    (hx : x < (img.w : Int)) (hy0 : 0 ≤ y) (hy : y < (img.h : Int)) :
    img.get x y = img.pix x.toNat y.toNat :=
  if_pos ⟨hx0, hx, hy0, hy⟩

lemma apply_transform_rotation_eq (img : Img) (ca sa : ℚ)
    (resample : Sampler) :
    apply_transform img ⟨0, 0, ca, sa⟩ resample
      = if ca = 1 ∧ sa = 0 then img else pilRotate resample img ca sa := by
  unfold apply_transform
  simp

/-- C1 amended: crop-consistency holds whenever the transform state is
translation-only (angle a multiple of 360, embedded as cosine-sine pair
(1, 0)) or rotation-only (dx = dy = 0), for every center-exact sampler;
for such states resampling the sub-rectangle through
affine_matrix_for_crop is pixel-identical to cropping the output of
apply_transform.  (For states combining a nonzero rotation with a nonzero
translation the property fails, because apply_transform resamples twice
and clips at the intermediate image bounds: see the counterexample.) -/
theorem crop_consistency_special (img : Img) (st : TransformState)
    (resample : Sampler) (hc : CenterExact resample)
    (x0 y0 cw ch : Nat)
    (hx : x0 + cw ≤ img.w) (hy : y0 + ch ≤ img.h)
    (hst : (st.ca = 1 ∧ st.sa = 0) ∨ (st.dx = 0 ∧ st.dy = 0)) :
    Img.Eq (imgCrop (apply_transform img st resample) x0 y0 cw ch)
      (affineResample resample img
        (affine_matrix_for_crop st (img.w, img.h) x0 y0) cw ch) := by
  obtain ⟨dx, dy, ca, sa⟩ := st
  refine ⟨rfl, rfl, ?_⟩
  intro x hxb y hyb
  have hxb2 : x < cw := hxb
  have hyb2 : y < ch := hyb
  dsimp only [imgCrop, affineResample, affine_matrix_for_crop,
    affine_matrix_for_state]
  have hu0 : (0 : Int) ≤ (x : Int) + (x0 : Int) := by positivity
  have huW : (x : Int) + (x0 : Int) < (img.w : Int) := by omega
  have hv0 : (0 : Int) ≤ (y : Int) + (y0 : Int) := by positivity
  have hvH : (y : Int) + (y0 : Int) < (img.h : Int) := by omega
  rcases hst with ⟨hca, hsa⟩ | ⟨hdx, hdy⟩
  · subst hca
    subst hsa
    rw [apply_transform_translation_eq]
    by_cases h0 : dx = 0 ∧ dy = 0
    · obtain ⟨h1, h2⟩ := h0
      subst h1
      subst h2
      rw [if_pos ⟨rfl, rfl⟩,
        ← hc img ((x : Int) + (x0 : Int)) ((y : Int) + (y0 : Int))]
      exact congr_arg₂ (resample img) (by push_cast; ring) (by push_cast; ring)
    · rw [if_neg h0]
      unfold pilTranslate
      rw [affineResample_get resample img _ img.w img.h _ _ hu0 huW hv0 hvH]
      exact congr_arg₂ (resample img) (by push_cast; ring) (by push_cast; ring)
  · subst hdx
    subst hdy
    rw [apply_transform_rotation_eq]
    by_cases hr : ca = 1 ∧ sa = 0
    · obtain ⟨h1, h2⟩ := hr
      subst h1
      subst h2
      rw [if_pos ⟨rfl, rfl⟩,
        ← hc img ((x : Int) + (x0 : Int)) ((y : Int) + (y0 : Int))]
      exact congr_arg₂ (resample img) (by push_cast; ring) (by push_cast; ring)
    · rw [if_neg hr]
      unfold pilRotate
      rw [if_neg hr,
        affineResample_get resample img _ img.w img.h _ _ hu0 huW hv0 hvH]
      dsimp only [rotationMatrix]
      exact congr_arg₂ (resample img) (by push_cast; ring) (by push_cast; ring)

/-- Test image for the C1 witness: a 3 by 2 gradient. -/
def imgWit : Img := ⟨3, 2, fun x y => 10 * x + y⟩

/-- Witness for C1 amended, at a pure translation by (1, 0) with nearest
resampling and the in-bounds sub-rectangle (1, 0, 2, 2). -/
theorem crop_consistency_special_witness :
    (1 + 2 ≤ imgWit.w ∧ 0 + 2 ≤ imgWit.h) ∧
    Img.Eq (imgCrop (apply_transform imgWit ⟨1, 0, 1, 0⟩ nearestSample) 1 0 2 2)
      (affineResample nearestSample imgWit
        (affine_matrix_for_crop ⟨1, 0, 1, 0⟩ (imgWit.w, imgWit.h) 1 0) 2 2) :=
  ⟨⟨by decide, by decide⟩,
    crop_consistency_special imgWit ⟨1, 0, 1, 0⟩ nearestSample
      nearestSample_centerExact 1 0 2 2 (by decide) (by decide)
      (Or.inl ⟨rfl, rfl⟩)⟩

/-- Counterexample image for C1: a 2 by 1 image with samples 10 and 20. -/
def imgCE : Img := ⟨2, 1, fun x _ => if x = 0 then 10 else 20⟩

/-- Counterexample state for C1: translation dx = 1/2 combined with a 180
degree rotation (cosine -1, sine 0). -/
def stCE : TransformState := ⟨1/2, 0, -1, 0⟩

lemma apply_transform_CE :
    apply_transform imgCE stCE nearestSample
      = pilTranslate nearestSample (pilRotate nearestSample imgCE (-1) 0)
          (1/2) 0 := by
  unfold apply_transform stCE
  norm_num

lemma pilRotate_CE :
    pilRotate nearestSample imgCE (-1) 0
      = affineResample nearestSample imgCE (rotationMatrix (-1) 0 2 1) 2 1 := by
  unfold pilRotate imgCE
  norm_num

lemma floor_half_eval : ⌊(1/2 : ℚ)⌋ = 0 := by
  norm_num [Int.floor_eq_iff]

lemma floor_three_halves_eval : ⌊(3/2 : ℚ)⌋ = 1 := by
  rw [Int.floor_eq_iff]
  norm_num

lemma floor_two_eval : ⌊(2 : ℚ)⌋ = 2 := by
  rw [Int.floor_eq_iff]
  norm_num

lemma rotated_CE_at_origin :
    nearestSample
      (affineResample nearestSample imgCE (rotationMatrix (-1) 0 2 1) 2 1)
      0 (1/2) = 20 := by
  unfold nearestSample
  rw [Int.floor_zero, floor_half_eval,
    Img.get_eval _ 0 0 (by decide) (by decide) (by decide) (by decide)]
  dsimp only [affineResample, rotationMatrix]
  norm_num
  rw [Img.get_eval imgCE 1 0 (by decide) (by decide) (by decide) (by decide)]
  decide

lemma crop_side_CE :
    (imgCrop (apply_transform imgCE stCE nearestSample) 0 0 2 1).pix 0 0
      = 20 := by
  dsimp only [imgCrop]
  rw [apply_transform_CE, pilRotate_CE]
  norm_num
  unfold pilTranslate
  rw [affineResample_get nearestSample _ _ _ _ 0 0 (by decide) (by decide)
    (by decide) (by decide)]
  norm_num
  exact rotated_CE_at_origin

lemma region_side_CE :
    (affineResample nearestSample imgCE
      (affine_matrix_for_crop stCE (2, 1) 0 0) 2 1).pix 0 0 = 0 := by
  dsimp only [affineResample, affine_matrix_for_crop, affine_matrix_for_state,
    stCE]
  norm_num
  unfold nearestSample
  rw [floor_two_eval, floor_half_eval]
  unfold Img.get
  rw [if_neg (by decide)]

/-- Counterexample for C1 as stated: for the state with dx = 1/2 and a 180
degree rotation, cropping the full apply_transform output is NOT
pixel-identical to resampling through affine_matrix_for_crop, already for
the nearest filter and the full-image sub-rectangle: apply_transform
resamples twice (rotation, then translation) and clips at the
intermediate bounds, while the composed matrix resamples once. -/
theorem crop_consistency_counterexample :
    ¬ Img.Eq (imgCrop (apply_transform imgCE stCE nearestSample) 0 0 2 1)
      (affineResample nearestSample imgCE
        (affine_matrix_for_crop stCE (2, 1) 0 0) 2 1) := by
  intro hEq
  have h := hEq.2.2 0 (by decide) 0 (by decide)
  rw [crop_side_CE, region_side_CE] at h
  exact absurd h (by decide)

/-- All sample values of an image in row-major order.  The display-level
embedding models 8-bit single-band (PIL mode L) images, for which the
convert-to-L calls in core.py are the identity on pixel data. -/
def Img.samples (img : Img) : List Nat :=
  (List.range img.h).flatMap fun y => (List.range img.w).map fun x => img.pix x y

/-- Embedding of the private display-levels helper of core.py: an invalid
window (max_val at most min_val) returns the L-converted image unchanged;
otherwise each sample is clamped to the window and linearly scaled to the
range 0 to 255, truncating toward zero as the Python int() call does. -/
def apply_display_levels (image : Img) (min_val max_val : ℚ) : Img :=
  if max_val ≤ min_val then image
  else
    let scale : ℚ := 255 / (max_val - min_val)
    ⟨image.w, image.h, fun x y =>
      let v : ℚ := (image.pix x y : ℚ)
      if v ≤ min_val then 0
      else if max_val ≤ v then 255
      else (⌊(v - min_val) * scale⌋).toNat⟩

/-- Embedding of PIL ImageOps.autocontrast with cutoff 0 on an 8-bit
image: lo and hi are the first and last occupied histogram bins, that is
the minimum and maximum sample value (with the Python loop fallbacks 255
and 0 for an empty histogram); when hi is at most lo the lookup table is
the identity, otherwise samples are scaled by 255 over (hi - lo) with
offset -lo times scale and clamped into 0 to 255.  The int() truncation
followed by clamping agrees with floor followed by the same clamping. -/
def autocontrast (img : Img) : Img :=
  let s := Img.samples img
  let lo := s.foldr min 255
  let hi := s.foldr max 0
  if hi ≤ lo then img
  else
    let scale : ℚ := 255 / ((hi : ℚ) - (lo : ℚ))
    let offset : ℚ := -(lo : ℚ) * scale
    ⟨img.w, img.h, fun x y =>
      let ix : ℚ := (img.pix x y : ℚ) * scale + offset
      if ix < 0 then 0 else if 255 < ix then 255 else (⌊ix⌋).toNat⟩

/-- Embedding of to_display_gray of core.py for 8-bit single-band images:
a given display range goes through the display-levels helper, no range
means autocontrast (the convert-to-L step is the identity here). -/
def to_display_gray (image : Img) (display_range : Option (ℚ × ℚ)) : Img :=
  match display_range with
  | some (mn, mx) => apply_display_levels image mn mx
  | none => autocontrast image

/-- C4 amended: for an 8-bit single-band image and an invalid manual
display range (max_val at most min_val), to_display_gray returns the
image unchanged (the L conversion only); auto-contrast is NOT applied. -/
theorem display_levels_invalid_range_identity (img : Img) (mn mx : ℚ)
    (h8 : ∀ x < img.w, ∀ y < img.h, img.pix x y ≤ 255)
    (hinv : mx ≤ mn) :
    Img.Eq (to_display_gray img (some (mn, mx))) img := by
  show Img.Eq (apply_display_levels img mn mx) img
  unfold apply_display_levels
  rw [if_pos hinv]
  exact imgEq_refl img

/-- Witness for C4 amended at the two-pixel image with samples 10 and 20
and the invalid range (5, 5). -/
theorem display_levels_invalid_range_identity_witness :
    ((∀ x < imgCE.w, ∀ y < imgCE.h, imgCE.pix x y ≤ 255) ∧ (5 : ℚ) ≤ 5) ∧
    Img.Eq (to_display_gray imgCE (some (5, 5))) imgCE :=
  ⟨⟨by decide, by norm_num⟩,
    display_levels_invalid_range_identity imgCE 5 5 (by decide) (by norm_num)⟩

lemma to_display_gray_invalid_CE :
    to_display_gray imgCE (some (5, 5)) = imgCE := by
  show apply_display_levels imgCE 5 5 = imgCE
  unfold apply_display_levels
  rw [if_pos (le_refl (5 : ℚ))]

lemma autocontrast_CE_pix : (autocontrast imgCE).pix 0 0 = 0 := by
  unfold autocontrast
  dsimp only
  rw [show (Img.samples imgCE).foldr min 255 = 10 by decide,
    show (Img.samples imgCE).foldr max 0 = 20 by decide,
    if_neg (by decide : ¬(20 ≤ 10))]
  dsimp only
  rw [show imgCE.pix 0 0 = 10 from rfl]
  norm_num

lemma autocontrast_CE_w : (autocontrast imgCE).w = 2 := by
  unfold autocontrast
  dsimp only
  rw [show (Img.samples imgCE).foldr min 255 = 10 by decide,
    show (Img.samples imgCE).foldr max 0 = 20 by decide,
    if_neg (by decide : ¬(20 ≤ 10))]
  rfl

lemma autocontrast_CE_h : (autocontrast imgCE).h = 1 := by
  unfold autocontrast
  dsimp only
  rw [show (Img.samples imgCE).foldr min 255 = 10 by decide,
    show (Img.samples imgCE).foldr max 0 = 20 by decide,
    if_neg (by decide : ¬(20 ≤ 10))]
  rfl

/-- Counterexample for C4 as stated: on the image with samples 10 and 20,
an invalid manual range (5, 5) returns the image unchanged, while auto
mode stretches the extrema to 0 and 255, so the two outputs differ. -/
theorem display_levels_invalid_range_counterexample :
    ¬ Img.Eq (to_display_gray imgCE (some (5, 5)))
      (to_display_gray imgCE none) := by
  intro hEq
  rw [to_display_gray_invalid_CE] at hEq
  have h := hEq.2.2 0 (by decide) 0 (by decide)
  rw [show to_display_gray imgCE none = autocontrast imgCE from rfl,
    autocontrast_CE_pix] at h
  exact absurd h (by decide)

/-- Case-insensitive text comparison helper: lower-case a character list,
matching the Python str.lower calls on the ASCII strings involved. -/
def lowerChars (s : List Char) : List Char := s.map Char.toLower

/-- Substring test: pat occurs somewhere in s, as the Python in operator
on strings. -/
def containsSub (pat s : List Char) : Bool :=
  (List.range (s.length + 1)).any fun i => pat.isPrefixOf (s.drop i)

/-- Number of (possibly overlapping) occurrence positions of pat in s. -/
def countSub (pat s : List Char) : Nat :=
  (List.range (s.length + 1)).countP fun i => pat.isPrefixOf (s.drop i)

/-- The alignment marker text of core.py. -/
def alignmentTag : String := "Manual Aligned"

/-- Embedding of add_alignment_tag of core.py, modeled on the description
tag (TIFF tag 270), the only entry the function reads or writes: the
argument is the existing description value (none when the directory has
no tag 270, which like the empty string is falsy in Python), the result
is the new description value.  All other directory entries are copied
unchanged by the code, so equality of directories is equality of this
value. -/
def add_alignment_tag (existing : Option String) : String :=
  match existing with
  | some e =>
    if e = "" then alignmentTag
    else if containsSub (lowerChars alignmentTag.toList)
        (lowerChars e.toList) = true
      then e
      else e ++ " | " ++ alignmentTag
  | none => alignmentTag

lemma add_alignment_tag_some_eq (e : String) :
    add_alignment_tag (some e)
      = if e = "" then alignmentTag
        else if containsSub (lowerChars alignmentTag.toList)
            (lowerChars e.toList) = true
          then e
          else e ++ " | " ++ alignmentTag := rfl

lemma containsSub_append_right (pat s t : List Char)
    (h : containsSub pat t = true) : containsSub pat (s ++ t) = true := by
  unfold containsSub at h ⊢
  rw [List.any_eq_true] at h ⊢
  obtain ⟨i, hi, hp⟩ := h
  refine ⟨s.length + i, ?_, ?_⟩
  · rw [List.mem_range] at hi ⊢
    rw [List.length_append]
    omega
  · rw [List.drop_append]
    exact hp

lemma lowerChars_append (a b : List Char) :
    lowerChars (a ++ b) = lowerChars a ++ lowerChars b :=
  List.map_append _ _ _

lemma add_alignment_tag_contains (d : Option String) :
    add_alignment_tag d ≠ "" ∧
    containsSub (lowerChars alignmentTag.toList)
      (lowerChars (add_alignment_tag d).toList) = true := by
  match d with
  | none => exact ⟨by decide, by decide⟩
  | some e =>
    rw [add_alignment_tag_some_eq]
    by_cases he : e = ""
    · rw [if_pos he]
      exact ⟨by decide, by decide⟩
    · rw [if_neg he]
      by_cases hc : containsSub (lowerChars alignmentTag.toList)
          (lowerChars e.toList) = true
      · rw [if_pos hc]
        exact ⟨he, hc⟩
      · rw [if_neg hc]
        constructor
        · intro hcontra
          have := congrArg String.toList hcontra
          rw [show (e ++ " | " ++ alignmentTag).toList
              = (e ++ " | ").toList ++ alignmentTag.toList from rfl] at this
          have h2 := (List.append_eq_nil.mp this).2
          exact absurd h2 (by decide)
        · rw [show (e ++ " | " ++ alignmentTag).toList
              = (e ++ " | ").toList ++ alignmentTag.toList from rfl,
            lowerChars_append]
          exact containsSub_append_right _ _ _ (by decide)

/-- C7 amended: add_alignment_tag is idempotent (a second application
returns a directory equal to the result of the first), the resulting
description always contains the marker case-insensitively, the marker
string itself contains exactly one occurrence of the marker (so a
directory with no prior nonempty description ends up with exactly one),
and the exact output value in each case: empty or missing description
becomes the marker, a description already containing the marker
case-insensitively is returned unchanged (so pre-existing duplicate
markers are preserved, not reduced to one), and otherwise the marker is
appended exactly once after a separator. -/
theorem add_alignment_tag_spec (d : Option String) :
    add_alignment_tag (some (add_alignment_tag d)) = add_alignment_tag d ∧
    containsSub (lowerChars alignmentTag.toList)
      (lowerChars (add_alignment_tag d).toList) = true ∧
    countSub (lowerChars alignmentTag.toList)
      (lowerChars alignmentTag.toList) = 1 ∧
    ((d = none ∨ d = some "") → add_alignment_tag d = alignmentTag) ∧
    (∀ e, d = some e → e ≠ "" →
      containsSub (lowerChars alignmentTag.toList)
        (lowerChars e.toList) = true →
      add_alignment_tag d = e) ∧
    (∀ e, d = some e → e ≠ "" →
      containsSub (lowerChars alignmentTag.toList)
        (lowerChars e.toList) = false →
      add_alignment_tag d = e ++ " | " ++ alignmentTag) := by
  obtain ⟨hne, hcont⟩ := add_alignment_tag_contains d
  refine ⟨?_, hcont, by decide, ?_, ?_, ?_⟩
  · rw [add_alignment_tag_some_eq, if_neg hne, if_pos hcont]
  · rintro (rfl | rfl)
    · rfl
    · rfl
  · intro e hd he hc
    subst hd
    rw [add_alignment_tag_some_eq, if_neg he, if_pos hc]
  · intro e hd he hc
    subst hd
    rw [add_alignment_tag_some_eq, if_neg he, if_neg (by rw [hc]; decide)]

/-- Witness for C7 amended at a directory whose description is the plain
text original (which does not contain the marker). -/
theorem add_alignment_tag_spec_witness :
    (("original" : String) ≠ "" ∧
      containsSub (lowerChars alignmentTag.toList)
        (lowerChars ("original" : String).toList) = false) ∧
    (add_alignment_tag (some (add_alignment_tag (some "original")))
        = add_alignment_tag (some "original") ∧
      add_alignment_tag (some "original")
        = ("original" : String) ++ " | " ++ alignmentTag) :=
  ⟨⟨by decide, by decide⟩,
    (add_alignment_tag_spec (some "original")).1,
    (add_alignment_tag_spec (some "original")).2.2.2.2.2 "original" rfl
      (by decide) (by decide)⟩

/-- Counterexample for C7 as stated: a metadata directory already carrying
the marker twice in its description is returned unchanged by
add_alignment_tag, so after applying the operation twice the description
contains the marker twice, not exactly once. -/
theorem add_alignment_tag_counterexample :
    ¬ (countSub (lowerChars alignmentTag.toList)
        (lowerChars (add_alignment_tag (some (add_alignment_tag
          (some "Manual Aligned | Manual Aligned")))).toList) = 1) := by
  decide

instance : Inhabited Img := ⟨⟨0, 0, fun _ _ => 0⟩⟩

/-- An opened image file as the loader sees it: its pages (frames), the
band decomposition of its first frame (split), and the image itself as a
whole.  A real file has at least one frame and one band. -/
structure PFile where
  frames : List Img
  bands : List Img
  self : Img

/-- Embedding of the ChannelStack dataclass of core.py; the tiffinfo and
save_kwargs metadata fields play no role in the load claims and are not
modeled. -/
structure ChannelStack where
  channels : List Img
  source_paths : List String

/-- Embedding of the private same-size check of core.py: the set of
distinct dimension pairs must have exactly one element. -/
def ensure_same_size (channels : List Img) : Except String Unit :=
  if ((channels.map fun c => (c.w, c.h)).eraseDups).length = 1 then
    Except.ok ()
  else Except.error "All channels must have the same dimensions."

/-- PIL Image.open against an abstract filesystem: a missing or unreadable
path raises, modeled as an error. -/
def openImage (fs : String → Option PFile) (path : String) :
    Except String PFile :=
  match fs path with
  | some f => Except.ok f
  | none => Except.error "Cannot open file."

/-- Embedding of load_channels_from_paths of core.py: no paths is an
error; several paths give one channel per file (sizes must agree); a
single multi-frame file gives one channel per frame; a single multi-band
file gives one channel per band; otherwise the single image is the only
channel. -/
def load_channels_from_paths (fs : String → Option PFile)
    (paths : List String) : Except String ChannelStack :=
  if paths = [] then Except.error "No input paths provided."
  else if 1 < paths.length then do
    let files ← paths.mapM (openImage fs)
    let channels := files.map fun f => f.self
    let _ ← ensure_same_size channels
    pure ⟨channels, paths⟩
  else do
    let f ← openImage fs (paths.headD "")
    if 1 < f.frames.length then do
      let _ ← ensure_same_size f.frames
      pure ⟨f.frames, paths⟩
    else if 1 < f.bands.length then do
      let _ ← ensure_same_size f.bands
      pure ⟨f.bands, paths⟩
    else
      pure ⟨[f.self], paths⟩

/-- Outcome of the load_images handler of app.py: either a user-visible
load error or a loaded, alignable stack. -/
inductive LoadOutcome where
  | error (msg : String)
  | loaded (stack : ChannelStack)

/-- Embedding of ManualChannelAlignerApp.load_images of app.py: a failing
loader surfaces its message, and a stack of fewer than two channels is
rejected with a load error before any state is updated. -/
def load_images (fs : String → Option PFile) (paths : List String) :
    LoadOutcome :=
  match load_channels_from_paths fs paths with
  | Except.error e => LoadOutcome.error e
  | Except.ok stack =>
    if stack.channels.length < 2 then
      LoadOutcome.error "Provide at least two channels to align."
    else LoadOutcome.loaded stack

/-- C5: load never produces an alignable stack with fewer than two
channels: whenever load_images succeeds, the loaded stack has at least
two channels; in particular any input whose resulting channel count is
below two ends in a load error. -/
theorem load_images_alignable (fs : String → Option PFile)
    (paths : List String) (stack : ChannelStack)
    (h : load_images fs paths = LoadOutcome.loaded stack) :
    2 ≤ stack.channels.length := by
  unfold load_images at h
  cases he : load_channels_from_paths fs paths with
  | error e =>
    rw [he] at h
    cases h
  | ok st =>
    rw [he] at h
    dsimp only at h
    by_cases hlt : st.channels.length < 2
    · rw [if_pos hlt] at h
      cases h
    · rw [if_neg hlt] at h
      cases h
      omega

/-- One-pixel image used by the load and save witnesses. -/
def imgTiny : Img := ⟨1, 1, fun _ _ => 7⟩

/-- A single-frame single-band file for the load witness. -/
def pfTiny : PFile := ⟨[imgTiny], [imgTiny], imgTiny⟩

/-- Filesystem for the load witness: two readable single-channel files. -/
def fsTiny : String → Option PFile := fun p =>
  if p = "a.tif" ∨ p = "b.tif" then some pfTiny else none

/-- Witness for C5: loading two single-band files yields a loaded stack,
and the theorem gives it at least two channels. -/
theorem load_images_alignable_witness :
    load_images fsTiny ["a.tif", "b.tif"]
        = LoadOutcome.loaded ⟨[imgTiny, imgTiny], ["a.tif", "b.tif"]⟩ ∧
    2 ≤ (ChannelStack.mk [imgTiny, imgTiny] ["a.tif", "b.tif"]).channels.length :=
  ⟨rfl, load_images_alignable fsTiny ["a.tif", "b.tif"] _ rfl⟩

/-- C10: load_channels_from_paths with an empty path sequence fails with
the no-input error for every filesystem, producing no ChannelStack. -/
theorem load_channels_empty_paths_error (fs : String → Option PFile) :
    load_channels_from_paths fs [] = Except.error "No input paths provided." :=
  rfl

/-- Embedding of ManualChannelAlignerApp._is_output_conflict of app.py:
the chosen output path conflicts when its absolute path equals the
absolute path of any source path.  The absolute-path normalization of the
operating system is abstracted as a function parameter. -/
def is_output_conflict (abspath : String → String)
    (source_paths : List String) (output_path : String) : Bool :=
  source_paths.any fun src => abspath src == abspath output_path

/-- The save-dialog loop of _save_aligned of app.py: each list entry is
one answer of the save dialog (none models a cancelled or empty answer,
which returns without saving).  A conflicting path or an already existing
path shows an error and asks again; the first acceptable answer is
returned. -/
def choose_output_path (abspath : String → String)
    (source_paths : List String) (exists_at : String → Bool) :
    List (Option String) → Option String
  | [] => none
  | none :: _ => none
  | some p :: rest =>
    if is_output_conflict abspath source_paths p = true then
      choose_output_path abspath source_paths exists_at rest
    else if exists_at p = true then
      choose_output_path abspath source_paths exists_at rest
    else some p

/-- Embedding of _save_aligned of app.py: when the dialog loop yields an
acceptable path, save_channels is called on it with the aligned channels
(the reference channel copied, every other channel transformed); a
cancelled dialog saves nothing.  The returned pair is exactly the
path-and-images argument of the save_channels call. -/
def save_aligned (abspath : String → String) (source_paths : List String)
    (exists_at : String → Bool) (dialog : List (Option String))
    (channels : List Img) (transforms : List TransformState)
    (reference_index : Nat) (resample : Sampler) :
    Option (String × List Img) :=
  match choose_output_path abspath source_paths exists_at dialog with
  | none => none
  | some p =>
    some (p, (List.range channels.length).map fun idx =>
      if idx = reference_index then channels.getD idx default
      else apply_transform (channels.getD idx default)
        (transforms.getD idx ⟨0, 0, 1, 0⟩) resample)

lemma choose_output_path_ok (abspath : String → String)
    (source_paths : List String) (exists_at : String → Bool) :
    ∀ (dialog : List (Option String)) (p : String),
      choose_output_path abspath source_paths exists_at dialog = some p →
      is_output_conflict abspath source_paths p = false ∧
      exists_at p = false := by
  intro dialog
  induction dialog with
  | nil =>
    intro p h
    cases h
  | cons hd tl ih =>
    intro p h
    cases hd with
    | none => cases h
    | some q =>
      unfold choose_output_path at h
      by_cases h1 : is_output_conflict abspath source_paths q = true
      · rw [if_pos h1] at h
        exact ih p h
      · rw [if_neg h1] at h
        by_cases h2 : exists_at q = true
        · rw [if_pos h2] at h
          exact ih p h
        · rw [if_neg h2] at h
          cases h
          exact ⟨Bool.not_eq_true _ ▸ h1, Bool.not_eq_true _ ▸ h2⟩

/-- C6: whenever _save_aligned reaches the save_channels call, the chosen
destination neither conflicts with a source path nor already exists (so
originals and existing files are never overwritten), and
is_output_conflict returns true exactly when the absolute path of the
destination equals the absolute path of some source path. -/
theorem save_aligned_refusal (abspath : String → String)
    (source_paths : List String) (exists_at : String → Bool)
    (dialog : List (Option String)) (channels : List Img)
    (transforms : List TransformState) (reference_index : Nat)
    (resample : Sampler) (p : String) (imgs : List Img)
    (h : save_aligned abspath source_paths exists_at dialog channels
      transforms reference_index resample = some (p, imgs)) :
    is_output_conflict abspath source_paths p = false ∧
    exists_at p = false ∧
    (∀ q : String, is_output_conflict abspath source_paths q = true ↔
      ∃ src ∈ source_paths, abspath src = abspath q) := by
  unfold save_aligned at h
  refine ?_
  cases hc : choose_output_path abspath source_paths exists_at dialog with
  | none =>
    rw [hc] at h
    cases h
  | some r =>
    rw [hc] at h
    dsimp only at h
    have hr : r = p := by
      cases h
      rfl
    subst hr
    obtain ⟨h1, h2⟩ := choose_output_path_ok abspath source_paths exists_at
      dialog r hc
    refine ⟨h1, h2, ?_⟩
    intro q
    unfold is_output_conflict
    rw [List.any_eq_true]
    constructor
    · rintro ⟨src, hmem, hbeq⟩
      exact ⟨src, hmem, beq_iff_eq.mp hbeq⟩
    · rintro ⟨src, hmem, heq⟩
      exact ⟨src, hmem, beq_iff_eq.mpr heq⟩

/-- Second tiny image for the save witness. -/
def imgTiny2 : Img := ⟨1, 1, fun _ _ => 9⟩

/-- Witness for C6: the dialog first proposes the source path itself
(conflict), then an existing path, then a fresh path, which is accepted;
the accepted path has no conflict and does not exist. -/
theorem save_aligned_refusal_witness :
    save_aligned id ["src.tif"] (fun p => p == "taken.tif")
        [some "src.tif", some "taken.tif", some "out.tif"]
        [imgTiny, imgTiny2] [⟨0, 0, 1, 0⟩, ⟨0, 0, 1, 0⟩] 0 nearestSample
      = some ("out.tif", [imgTiny, imgTiny2]) ∧
    (is_output_conflict id ["src.tif"] "out.tif" = false ∧
      (fun p => p == "taken.tif") "out.tif" = false ∧
      (∀ q : String, is_output_conflict id ["src.tif"] q = true ↔
        ∃ src ∈ ["src.tif"], id src = id q)) :=
  ⟨rfl, save_aligned_refusal id ["src.tif"] (fun p => p == "taken.tif")
    [some "src.tif", some "taken.tif", some "out.tif"]
    [imgTiny, imgTiny2] [⟨0, 0, 1, 0⟩, ⟨0, 0, 1, 0⟩] 0 nearestSample
    "out.tif" [imgTiny, imgTiny2] rfl⟩

/-- Object store for the frame-effect claim: PIL images are heap objects;
a store is the list of allocated image objects, and a reference is an
index into it. -/
abbrev Store : Type := List Img

/-- Allocating a new image object: it is appended to the store and its
reference (the old store length) is returned, so it is distinct from
every existing reference. -/
def allocImg (s : Store) (img : Img) : Store × Nat :=
  (s ++ [img], s.length)

/-- Store-level PIL Image.copy: allocates a fresh object carrying the
pixels of the source object and touches nothing else. -/
def copyS (s : Store) (r : Nat) : Store × Nat :=
  allocImg s (s.getD r default)

/-- Store-level PIL Image.rotate: a fresh object holding the rotated
pixels (a fresh copy even for a multiple of 360 degrees). -/
def rotateS (resample : Sampler) (s : Store) (r : Nat) (ca sa : ℚ) :
    Store × Nat :=
  allocImg s (pilRotate resample (s.getD r default) ca sa)

/-- Store-level PIL Image.transform for the translation step: a fresh
object holding the translated pixels. -/
def translateS (resample : Sampler) (s : Store) (r : Nat) (dx dy : ℚ) :
    Store × Nat :=
  allocImg s (pilTranslate resample (s.getD r default) dx dy)

/-- Store-level embedding of apply_transform of core.py, mirroring its
sequence of object-producing PIL calls: out = image.copy(), then rotate
when the angle is truthy, then translate when dx or dy is truthy. -/
def apply_transformS (s : Store) (r : Nat) (state : TransformState)
    (resample : Sampler) : Store × Nat :=
  let p1 := copyS s r
  let p2 := if state.ca = 1 ∧ state.sa = 0 then p1
    else rotateS resample p1.1 p1.2 state.ca state.sa
  if state.dx = 0 ∧ state.dy = 0 then p2
  else translateS resample p2.1 p2.2 state.dx state.dy

lemma allocImg_preserves (s : Store) (img : Img) (i : Nat)
    (h : i < s.length) :
    (allocImg s img).1.getD i default = s.getD i default :=
  List.getD_append s [img] default i h

lemma allocImg_fresh_val (s : Store) (img : Img) :
    (allocImg s img).1.getD (allocImg s img).2 default = img := by
  show (s ++ [img]).getD s.length default = img
  rw [List.getD_eq_getElem?_getD, List.getElem?_concat_length]
  rfl

lemma allocImg_len (s : Store) (img : Img) :
    (allocImg s img).1.length = s.length + 1 := by
  show (s ++ [img]).length = s.length + 1
  rw [List.length_append]
  rfl

lemma allocImg_ref (s : Store) (img : Img) :
    (allocImg s img).2 = s.length := rfl

/-- C9: apply_transform never mutates its input and returns a fresh
object.  At the store level: every object existing before the call,
including the input image, holds exactly the same pixels afterwards; the
returned reference is brand new (at or beyond the old store length, in
particular different from the input reference even in the identity case,
which still copies); and the returned object holds the pixels that the
pure apply_transform computes from the input pixels. -/
theorem apply_transformS_no_mutation (s : Store) (r : Nat)
    (state : TransformState) (resample : Sampler) (hr : r < s.length) :
    (∀ i, i < s.length →
      (apply_transformS s r state resample).1.getD i default
        = s.getD i default) ∧
    s.length ≤ (apply_transformS s r state resample).2 ∧
    (apply_transformS s r state resample).2 ≠ r ∧
    (apply_transformS s r state resample).1.getD
        (apply_transformS s r state resample).2 default
      = apply_transform (s.getD r default) state resample := by
  unfold apply_transformS copyS rotateS translateS apply_transform
  dsimp only
  by_cases h1 : state.ca = 1 ∧ state.sa = 0 <;>
    by_cases h2 : state.dx = 0 ∧ state.dy = 0
  · rw [if_pos h1, if_pos h2, if_pos h1, if_pos h2]
    refine ⟨fun i hi => allocImg_preserves s _ i hi, ?_, ?_, ?_⟩
    · rw [allocImg_ref]
    · rw [allocImg_ref]
      omega
    · exact allocImg_fresh_val s _
  · rw [if_pos h1, if_neg h2, if_pos h1, if_neg h2]
    refine ⟨?_, ?_, ?_, ?_⟩
    · intro i hi
      rw [allocImg_preserves _ _ i (by rw [allocImg_len]; omega),
        allocImg_preserves s _ i hi]
    · rw [allocImg_ref, allocImg_len]
      omega
    · rw [allocImg_ref, allocImg_len]
      omega
    · rw [allocImg_fresh_val, allocImg_fresh_val]
  · rw [if_neg h1, if_pos h2, if_neg h1, if_pos h2]
    refine ⟨?_, ?_, ?_, ?_⟩
    · intro i hi
      rw [allocImg_preserves _ _ i (by rw [allocImg_len]; omega),
        allocImg_preserves s _ i hi]
    · rw [allocImg_ref, allocImg_len]
      omega
    · rw [allocImg_ref, allocImg_len]
      omega
    · rw [allocImg_fresh_val, allocImg_fresh_val]
  · rw [if_neg h1, if_neg h2, if_neg h1, if_neg h2]
    refine ⟨?_, ?_, ?_, ?_⟩
    · intro i hi
      rw [allocImg_preserves _ _ i
          (by rw [allocImg_len, allocImg_len]; omega),
        allocImg_preserves _ _ i (by rw [allocImg_len]; omega),
        allocImg_preserves s _ i hi]
    · rw [allocImg_ref, allocImg_len, allocImg_len]
      omega
    · rw [allocImg_ref, allocImg_len, allocImg_len]
      omega
    · rw [allocImg_fresh_val, allocImg_fresh_val, allocImg_fresh_val]

/-- Witness for C9 on a one-object store holding the gradient image, with
the identity state: the old object is untouched and the result reference
is fresh. -/
theorem apply_transformS_no_mutation_witness :
    0 < ([imgWit] : Store).length ∧
    ((∀ i, i < ([imgWit] : Store).length →
      (apply_transformS [imgWit] 0 ⟨0, 0, 1, 0⟩ nearestSample).1.getD i default
        = ([imgWit] : Store).getD i default) ∧
    ([imgWit] : Store).length
        ≤ (apply_transformS [imgWit] 0 ⟨0, 0, 1, 0⟩ nearestSample).2 ∧
    (apply_transformS [imgWit] 0 ⟨0, 0, 1, 0⟩ nearestSample).2 ≠ 0 ∧
    (apply_transformS [imgWit] 0 ⟨0, 0, 1, 0⟩ nearestSample).1.getD
        (apply_transformS [imgWit] 0 ⟨0, 0, 1, 0⟩ nearestSample).2 default
      = apply_transform (([imgWit] : Store).getD 0 default) ⟨0, 0, 1, 0⟩
          nearestSample) :=
  ⟨by decide, apply_transformS_no_mutation [imgWit] 0 ⟨0, 0, 1, 0⟩
    nearestSample (by decide)⟩
